import Mathlib

/-!
Shallow embedding of the TTL index expiration engine of Tendis
(`src/tendisplus/server/index_manager.cpp`, with the startup call site in
`src/tendisplus/server/server_entry.cpp`).

The per-shard tables of `IndexManager` (`_scanPoints`, `_expiredKeys`,
`_scanJobStatus`, `_delJobStatus`, `_disableStatus`, `_scanJobCnt`,
`_delJobCnt`) are modelled as total functions from the store id; the
process-wide counters `_totalEnqueue` / `_totalDequeue` are plain fields.
External collaborators (segment manager, storage engine, migrate manager)
are modelled as explicit inputs, following the contracts of the spec where
their code is not part of the excerpt.

Opaque byte strings ordered lexicographically (the encoded TTL-index keys)
are modelled as natural numbers with their usual order; the empty resume
cursor is `none`.
-/

namespace Tendis

/-- Result status of an engine operation, modelling `tendisplus::Status`:
`ok` is true exactly for `ErrorCodes::ERR_OK`; `code` abstracts the
error code and message of a non-OK status. -/
structure Status where
  ok : Bool
  code : Nat
deriving DecidableEq, Repr

/-- The `{ErrorCodes::ERR_OK, ""}` status returned on all success paths. -/
def statusOK : Status := ⟨true, 0⟩

/-- Storage mode of a shard, modelling `KVStore::StoreMode`. -/
inductive StoreMode
  | READ_WRITE
  | REPLICATE_ONLY
  | STORE_NONE
deriving DecidableEq, Repr

/-- One TTL-index record as consumed by the engine: primary key, db id,
value-type tag, and the totally ordered encoded form (`record.encode()`)
used as the resume cursor. -/
structure TTLIndex where
  priKey : String
  dbId : Nat
  ttlType : Nat
  enc : Nat
deriving DecidableEq, Repr

/-- Modelled from the spec: the per-shard storage engine handle (`PStore`)
as the scanner observes it. `createTransaction` abstracts
`store->createTransaction` followed by `txn->createTTLIndexCursor(now)`:
on success it yields the list of expired TTL-index records the cursor
iterates, in ascending order of their encoded form (the storage engine's
ordered-iterator contract); on failure it yields the non-OK status of
`createTransaction`. The cursor itself is not part of the source excerpt. -/
structure PStore where
  mode : StoreMode
  isOpen : Bool
  createTransaction : Except Status (List TTLIndex)

/-- External inputs of one `scanExpiredKeysJob` invocation: the cluster
flag, the migrate-manager answer, and the result of
`_svr->getSegmentMgr()->getDb(...)` (shard lookup). -/
structure ScanEnv where
  clusterEnabled : Bool
  existMigrateTask : Bool
  getDb : Except Status PStore

/-- Pointwise update of a per-shard table. -/
def upd {α : Type} (f : Nat → α) (i : Nat) (v : α) : Nat → α :=
  fun j => if j = i then v else f j

/-- Mutable state of `IndexManager` relevant to the jobs: one entry per
per-shard table plus the process-wide counters. -/
structure IMState where
  scanPoints : Nat → Option Nat
  expiredKeys : Nat → List TTLIndex
  scanJobStatus : Nat → Bool
  delJobStatus : Nat → Bool
  disableStatus : Nat → Bool
  scanJobCnt : Nat → Nat
  delJobCnt : Nat → Nat
  totalEnqueue : Nat
  totalDequeue : Nat

/-- State set up by the `IndexManager` constructor: empty scan points,
empty queues, all flags false, all counters zero. -/
def initIM : IMState :=
  { scanPoints := fun _ => none
    expiredKeys := fun _ => []
    scanJobStatus := fun _ => false
    delJobStatus := fun _ => false
    disableStatus := fun _ => false
    scanJobCnt := fun _ => 0
    delJobCnt := fun _ => 0
    totalEnqueue := 0
    totalDequeue := 0 }

/-- Width of the in-flight counters (`std::atomic` of `uint32_t`). -/
def u32 : Nat := 2 ^ 32

/-- Wrapping decrement of a `uint32_t` counter (`cnt--`). -/
def decU32 (x : Nat) : Nat := (x + (u32 - 1)) % u32

/-- Wrapping increment of a `uint32_t` counter (`cnt++`). -/
def incU32 (x : Nat) : Nat := (x + 1) % u32

/-- The scope guard installed by `scanExpiredKeysJob` (`MakeGuard`):
decrement `_scanJobCnt[storeId]` and store false into
`_scanJobStatus[storeId]`. It runs on every return that follows its
installation. -/
def scanGuard (storeId : Nat) (st : IMState) : IMState :=
  { st with
    scanJobCnt := upd st.scanJobCnt storeId (decU32 (st.scanJobCnt storeId))
    scanJobStatus := upd st.scanJobStatus storeId false }

/-- Effect of the successful CAS at the top of `scanExpiredKeysJob`:
`_scanJobStatus[storeId]` becomes true. -/
def scanFlagSet (storeId : Nat) (st : IMState) : IMState :=
  { st with scanJobStatus := upd st.scanJobStatus storeId true }

/-- Effect of the increment `_scanJobCnt[storeId]++` in
`scanExpiredKeysJob`. -/
def scanCntInc (storeId : Nat) (st : IMState) : IMState :=
  { st with scanJobCnt := upd st.scanJobCnt storeId (incU32 (st.scanJobCnt storeId)) }

/-- Effect of the successful CAS at the top of `tryDelExpiredKeysJob`:
`_delJobStatus[storeId]` becomes true. -/
def delFlagSet (storeId : Nat) (st : IMState) : IMState :=
  { st with delJobStatus := upd st.delJobStatus storeId true }

/-- Effect of the increment `_delJobCnt[storeId]++` in
`tryDelExpiredKeysJob`. -/
def delCntInc (storeId : Nat) (st : IMState) : IMState :=
  { st with delJobCnt := upd st.delJobCnt storeId (incU32 (st.delJobCnt storeId)) }

/-- Exit sequence of `tryDelExpiredKeysJob`: decrement
`_delJobCnt[storeId]` and store false into `_delJobStatus[storeId]`. -/
def delExit (storeId : Nat) (st : IMState) : IMState :=
  { st with
    delJobCnt := upd st.delJobCnt storeId (decU32 (st.delJobCnt storeId))
    delJobStatus := upd st.delJobStatus storeId false }

/-- Scan body of `scanExpiredKeysJob`: repeatedly take the next cursor
record; on success assign `_scanPoints[storeId]`, push the record onto
`_expiredKeys[storeId]`, bump `_totalEnqueue`, and stop when the queue
size equals `_scanBatch`; stop when the cursor is exhausted. -/
def scanLoop (scanBatch storeId : Nat) : List TTLIndex → IMState → IMState
  | [], st => st
  | r :: rest, st =>
    let st' : IMState :=
      { st with
        scanPoints := upd st.scanPoints storeId (some r.enc)
        expiredKeys := upd st.expiredKeys storeId (st.expiredKeys storeId ++ [r])
        totalEnqueue := st.totalEnqueue + 1 }
    if (st'.expiredKeys storeId).length = scanBatch then st'
    else scanLoop scanBatch storeId rest st'

/-- Embedding of `IndexManager::scanExpiredKeysJob(storeId)`. Control flow
follows the source line by line: CAS on `_scanJobStatus`; early return if
`_disableStatus` (before the guard is installed); guard installation;
migrate-task early return; `_scanJobCnt++`; shard lookup; replicate-only
and closed-store early return; transaction and cursor creation; cursor
positioning from `_scanPoints` (seek, then skip one entry when the
cursor's current key equals the resume point); then the scan loop. -/
def scanExpiredKeysJob (env : ScanEnv) (scanBatch storeId : Nat)
    (st : IMState) : Status × IMState :=
  if st.scanJobStatus storeId then
    (statusOK, st)
  else
    let st1 : IMState := scanFlagSet storeId st
    if st1.disableStatus storeId then
      (statusOK, st1)
    else if env.clusterEnabled && env.existMigrateTask then
      (statusOK, scanGuard storeId st1)
    else
      let st2 : IMState := scanCntInc storeId st1
      match env.getDb with
      | .error s => (s, scanGuard storeId st2)
      | .ok store =>
        if store.mode = .REPLICATE_ONLY || store.isOpen = false then
          (statusOK, scanGuard storeId st2)
        else
          match store.createTransaction with
          | .error s => (s, scanGuard storeId st2)
          | .ok entries =>
            match st2.scanPoints storeId with
            | none =>
              (statusOK, scanGuard storeId (scanLoop scanBatch storeId entries st2))
            | some pfx =>
              match entries.dropWhile (fun e => e.enc < pfx) with
              | [] => (statusOK, scanGuard storeId st2)
              | e :: rest =>
                let cur := if e.enc = pfx then rest else e :: rest
                (statusOK, scanGuard storeId (scanLoop scanBatch storeId cur st2))

/-- Embedding of `IndexManager::stopStore(storeId)`: under the mutex,
clear the shard's expired queue, reset its scan point, zero both
in-flight counters, and set the disable flag. -/
def stopStore (storeId : Nat) (st : IMState) : Status × IMState :=
  (statusOK,
    { st with
      expiredKeys := upd st.expiredKeys storeId []
      scanPoints := upd st.scanPoints storeId none
      scanJobCnt := upd st.scanJobCnt storeId 0
      delJobCnt := upd st.delJobCnt storeId 0
      disableStatus := upd st.disableStatus storeId true })

/-- Delete body of `tryDelExpiredKeysJob`: while the shard's queue is
non-empty, peek the front record, invoke `Command::expireKeyIfNeeded` on
it (recorded in the returned call list), pop the front, bump
`_totalDequeue` and the local `deletes` counter, and stop when `deletes`
equals `_delBatch`. The first argument is the current content of
`_expiredKeys[storeId]`; the state field is popped in lockstep, so the
list recursed on stays equal to the shard's queue in the state. -/
def delLoop (delBatch storeId : Nat) :
    List TTLIndex → Nat → List TTLIndex → IMState → Nat × List TTLIndex × IMState
  | [], deletes, calls, st => (deletes, calls, st)
  | index :: rest, deletes, calls, st =>
    let st' : IMState :=
      { st with
        expiredKeys := upd st.expiredKeys storeId rest
        totalDequeue := st.totalDequeue + 1 }
    if deletes + 1 = delBatch then (deletes + 1, calls ++ [index], st')
    else delLoop delBatch storeId rest (deletes + 1) (calls ++ [index]) st'

/-- Embedding of `IndexManager::tryDelExpiredKeysJob(storeId)`: CAS on
`_delJobStatus`; early return if `_disableStatus` (without clearing the
flag); `_delJobCnt++`; the delete loop; then `_delJobCnt--` and release
of the flag. Returns the `deletes` count, the list of records passed to
`Command::expireKeyIfNeeded`, and the final state. -/
def tryDelExpiredKeysJob (delBatch storeId : Nat) (st : IMState) :
    Nat × List TTLIndex × IMState :=
  if st.delJobStatus storeId then
    (0, [], st)
  else
    let st1 : IMState := delFlagSet storeId st
    if st1.disableStatus storeId then
      (0, [], st1)
    else
      let st2 : IMState := delCntInc storeId st1
      let r := delLoop delBatch storeId (st2.expiredKeys storeId) 0 [] st2
      (r.1, r.2.1, delExit storeId r.2.2)

/-- What one iteration of the dispatch loop body of `IndexManager::run`
schedules: the shard ids handed to the scanner pool, the shard ids handed
to the deleter pool, and the sleep that follows. -/
structure DispatchTick where
  scanScheduled : List Nat
  delScheduled : List Nat
  sleepSeconds : Nat
deriving DecidableEq, Repr

/-- Embedding of one iteration of the loop in `IndexManager::run`:
`scheScanExpired` schedules a scanner job for every shard id below
`getKVStoreCount()`; `schedDelExpired` snapshots, under the mutex, the
shard ids whose `_expiredKeys` queue is non-empty and then (after
releasing the mutex) schedules a deleter job for exactly those; finally
the loop sleeps `_pauseTime` seconds. -/
def runTick (kvStoreCount pauseTime : Nat) (st : IMState) : DispatchTick :=
  { scanScheduled := List.range kvStoreCount
    delScheduled :=
      (List.range kvStoreCount).filter (fun i => (st.expiredKeys i).length > 0)
    sleepSeconds := pauseTime }

/-- Modelled from the spec: outcome of `WorkerPool::startup(n)` for each of
the two pools (`tx-idx-scan`, `tx-idx-del`); the pool code is not part of
the source excerpt, only its status result is consumed. -/
structure PoolsEnv where
  scannerStartup : Status
  deleterStartup : Status

/-- Observable lifecycle outcome of `IndexManager::startup`: the returned
status, the `_isRunning` flag, and whether the `tx-idx-loop` dispatch
thread was launched. -/
structure IMLifecycle where
  status : Status
  isRunning : Bool
  runnerLaunched : Bool
deriving DecidableEq, Repr

/-- Embedding of `IndexManager::startup`: start the scanner pool and
return its status on failure; start the deleter pool and return its
status on failure; otherwise store true into `_isRunning`, launch the
dispatch thread, and return OK. `_isRunning` starts false (constructor)
and is only set on the all-OK path. -/
def startup (env : PoolsEnv) : IMLifecycle :=
  if env.scannerStartup.ok = false then
    ⟨env.scannerStartup, false, false⟩
  else if env.deleterStartup.ok = false then
    ⟨env.deleterStartup, false, false⟩
  else
    ⟨statusOK, true, true⟩

/-- Embedding of `IndexManager::stop`: store false into `_isRunning`
(then join the runner and stop the pools). -/
def stopIM (l : IMLifecycle) : IMLifecycle :=
  { l with isRunning := false }

/-- Events of the one-shard engine execution model used for the temporal
replica-safety property: a scanner invocation (with the expired records
its cursor would yield), a deleter invocation, a storage-mode change of
the shard, and `stopStore`. -/
inductive SysEvent
  | scanEv (entries : List TTLIndex)
  | delEv
  | setMode (m : StoreMode)
  | stopStoreEv
deriving DecidableEq

/-- Execution state of the one-shard model: the `IndexManager` state, the
shard's current storage mode, and the log of `Command::expireKeyIfNeeded`
calls, each paired with the shard's mode at the time of the call. -/
structure SysState where
  im : IMState
  mode : StoreMode
  calls : List (TTLIndex × StoreMode)

/-- Initial execution state: constructor state, given storage mode, no
calls performed. -/
def sysInit (m : StoreMode) : SysState :=
  { im := initIM, mode := m, calls := [] }

/-- One step of the one-shard model: events run the embedded jobs on
shard 0 against a storage handle whose mode is the current mode of the
execution state (open store, working transaction, cluster mode off). -/
def sysStep (scanBatch delBatch : Nat) (s : SysState) : SysEvent → SysState
  | .scanEv entries =>
    let env : ScanEnv :=
      ⟨false, false, .ok ⟨s.mode, true, .ok entries⟩⟩
    { s with im := (scanExpiredKeysJob env scanBatch 0 s.im).2 }
  | .delEv =>
    let r := tryDelExpiredKeysJob delBatch 0 s.im
    { s with
      im := r.2.2
      calls := s.calls ++ r.2.1.map (fun e => (e, s.mode)) }
  | .setMode m => { s with mode := m }
  | .stopStoreEv => { s with im := (stopStore 0 s.im).2 }

/-- Execution of the one-shard model over a list of events. -/
def sysExec (scanBatch delBatch : Nat) (s : SysState)
    (tr : List SysEvent) : SysState :=
  tr.foldl (sysStep scanBatch delBatch) s

lemma upd_self {α : Type} (f : Nat → α) (i : Nat) (v : α) : upd f i v i = v := by
  simp [upd]

lemma upd_other {α : Type} (f : Nat → α) (i j : Nat) (v : α) (h : j ≠ i) :
    upd f i v j = f j := by
  simp [upd, h]

lemma scanLoop_append (b sid : Nat) :
    ∀ (entries : List TTLIndex) (st : IMState),
      ∃ tail, (scanLoop b sid entries st).expiredKeys sid = st.expiredKeys sid ++ tail ∧
        ∀ e ∈ tail, e ∈ entries := by
  intro entries
  induction entries with
  | nil =>
    intro st
    exact ⟨[], by simp [scanLoop], by simp⟩
  | cons r rest ih =>
    intro st
    simp only [scanLoop]
    split
    · exact ⟨[r], by simp [upd], by simp⟩
    · obtain ⟨tail, hq, hm⟩ := ih _
      refine ⟨r :: tail, ?_, ?_⟩
      · rw [hq]; simp [upd]
      · intro e he
        rcases List.mem_cons.mp he with h | h
        · simp [h]
        · exact List.mem_cons_of_mem _ (hm e h)

lemma scanLoop_length_le (b sid : Nat) :
    ∀ (entries : List TTLIndex) (st : IMState),
      (st.expiredKeys sid).length < b →
      ((scanLoop b sid entries st).expiredKeys sid).length ≤ b := by
  intro entries
  induction entries with
  | nil =>
    intro st h
    simpa [scanLoop] using Nat.le_of_lt h
  | cons r rest ih =>
    intro st h
    simp only [scanLoop]
    split
    · rename_i hc
      simp only [upd_self, List.length_append, List.length_cons, List.length_nil] at hc ⊢
      omega
    · rename_i hc
      apply ih
      simp only [upd_self, List.length_append, List.length_cons, List.length_nil] at hc ⊢
      omega

lemma delLoop_deletes_le (db sid : Nat) :
    ∀ (q : List TTLIndex) (d : Nat) (cs : List TTLIndex) (st : IMState),
      d < db → (delLoop db sid q d cs st).1 ≤ db := by
  intro q
  induction q with
  | nil =>
    intro d cs st h
    exact Nat.le_of_lt h
  | cons x rest ih =>
    intro d cs st h
    simp only [delLoop]
    split
    · rename_i hc; omega
    · rename_i hc
      exact ih (d + 1) _ _ (by omega)

lemma delLoop_queue_length (db sid : Nat) :
    ∀ (q : List TTLIndex) (d : Nat) (cs : List TTLIndex) (st : IMState),
      st.expiredKeys sid = q →
      ((delLoop db sid q d cs st).2.2.expiredKeys sid).length + (delLoop db sid q d cs st).1
        = q.length + d := by
  intro q
  induction q with
  | nil =>
    intro d cs st hq
    simp [delLoop, hq]
  | cons x rest ih =>
    intro d cs st hq
    simp only [delLoop]
    split
    · rename_i hc
      simp [upd_self]
      omega
    · rename_i hc
      rw [ih (d + 1) (cs ++ [x]) _ (by simp [upd_self])]
      simp
      omega

lemma delLoop_nil (db sid : Nat) (d : Nat) (cs : List TTLIndex) (st : IMState) :
    delLoop db sid [] d cs st = (d, cs, st) := rfl

lemma dropWhile_head_not {α : Type} {p : α → Bool} :
    ∀ {l : List α} {a : α} {as : List α}, l.dropWhile p = a :: as → p a = false := by
  intro l
  induction l with
  | nil =>
    intro a as h
    simp [List.dropWhile] at h
  | cons x xs ih =>
    intro a as h
    rw [List.dropWhile_cons] at h
    by_cases hp : p x
    · rw [if_pos hp] at h
      exact ih h
    · rw [if_neg hp] at h
      cases h
      exact Bool.of_not_eq_true hp

lemma dropWhile_cursor_above (C : Nat) {entries : List TTLIndex}
    (hs : entries.Pairwise (fun a b => a.enc < b.enc))
    {e : TTLIndex} {rest : List TTLIndex}
    (hd : entries.dropWhile (fun x => x.enc < C) = e :: rest) :
    C ≤ e.enc ∧ ∀ x ∈ rest, e.enc < x.enc := by
  constructor
  · have := dropWhile_head_not hd
    simp at this
    exact this
  · have hsub : (e :: rest).Sublist entries := hd ▸ List.dropWhile_sublist _
    have hp : (e :: rest).Pairwise (fun a b => a.enc < b.enc) := hs.sublist hsub
    exact (List.pairwise_cons.mp hp).1

lemma scan_ro_frame (env : ScanEnv) (b sid : Nat) (st : IMState) (store : PStore)
    (hdb : env.getDb = .ok store)
    (hro : store.mode = .REPLICATE_ONLY ∨ store.isOpen = false) :
    (scanExpiredKeysJob env b sid st).1 = statusOK ∧
    (scanExpiredKeysJob env b sid st).2.expiredKeys = st.expiredKeys ∧
    (scanExpiredKeysJob env b sid st).2.scanPoints = st.scanPoints ∧
    (scanExpiredKeysJob env b sid st).2.totalEnqueue = st.totalEnqueue := by
  cases h1 : st.scanJobStatus sid with
  | true =>
    simp [scanExpiredKeysJob, h1]
  | false =>
    cases h2 : st.disableStatus sid with
    | true =>
      simp [scanExpiredKeysJob, scanFlagSet, h1, h2]
    | false =>
      cases h3 : env.clusterEnabled && env.existMigrateTask with
      | true =>
        simp [scanExpiredKeysJob, scanFlagSet, scanCntInc, h1, h2, h3, scanGuard]
      | false =>
        rcases hro with hm | hop
        · simp [scanExpiredKeysJob, scanFlagSet, scanCntInc, h1, h2, h3, hdb, hm, scanGuard]
        · simp [scanExpiredKeysJob, scanFlagSet, scanCntInc, h1, h2, h3, hdb, hop, scanGuard]

lemma tryDel_empty (db sid : Nat) (st : IMState) (h : st.expiredKeys sid = []) :
    (tryDelExpiredKeysJob db sid st).2.1 = [] ∧
    (tryDelExpiredKeysJob db sid st).2.2.expiredKeys sid = [] := by
  cases h1 : st.delJobStatus sid with
  | true =>
    simp [tryDelExpiredKeysJob, h1, h]
  | false =>
    cases h2 : st.disableStatus sid with
    | true =>
      simp [tryDelExpiredKeysJob, delFlagSet, h1, h2, h]
    | false =>
      simp [tryDelExpiredKeysJob, delFlagSet, delCntInc, delExit, h1, h2, h, delLoop]

lemma scan_append_bound (env : ScanEnv) (b sid : Nat) (st : IMState)
    (hlt : (st.expiredKeys sid).length < b) :
    ∃ tail, (scanExpiredKeysJob env b sid st).2.expiredKeys sid
        = st.expiredKeys sid ++ tail ∧
      (st.expiredKeys sid).length + tail.length ≤ b := by
  have hle := Nat.le_of_lt hlt
  cases h1 : st.scanJobStatus sid with
  | true => exact ⟨[], by simp [scanExpiredKeysJob, h1], by simpa using hle⟩
  | false =>
  cases h2 : st.disableStatus sid with
  | true =>
    exact ⟨[], by simp [scanExpiredKeysJob, scanFlagSet, h1, h2], by simpa using hle⟩
  | false =>
  cases h3 : env.clusterEnabled && env.existMigrateTask with
  | true =>
    exact ⟨[], by simp [scanExpiredKeysJob, scanFlagSet, scanCntInc, scanGuard, h1, h2, h3],
      by simpa using hle⟩
  | false =>
  cases hdb : env.getDb with
  | error s =>
    exact ⟨[],
      by simp [scanExpiredKeysJob, scanFlagSet, scanCntInc, scanGuard, h1, h2, h3, hdb],
      by simpa using hle⟩
  | ok store =>
  by_cases hro : store.mode = .REPLICATE_ONLY ∨ store.isOpen = false
  · exact ⟨[],
      by simp [scanExpiredKeysJob, scanFlagSet, scanCntInc, scanGuard, h1, h2, h3, hdb, hro],
      by simpa using hle⟩
  · cases htxn : store.createTransaction with
    | error s =>
      exact ⟨[],
        by simp [scanExpiredKeysJob, scanFlagSet, scanCntInc, scanGuard,
          h1, h2, h3, hdb, hro, htxn],
        by simpa using hle⟩
    | ok entries =>
      cases hsp : st.scanPoints sid with
      | none =>
        obtain ⟨tail, hq, _⟩ :=
          scanLoop_append b sid entries (scanCntInc sid (scanFlagSet sid st))
        have hlen :=
          scanLoop_length_le b sid entries (scanCntInc sid (scanFlagSet sid st)) hlt
        have hred : (scanExpiredKeysJob env b sid st).2.expiredKeys sid
            = (scanLoop b sid entries (scanCntInc sid (scanFlagSet sid st))).expiredKeys sid := by
          simp [scanExpiredKeysJob, scanFlagSet, scanCntInc, scanGuard,
            h1, h2, h3, hdb, hro, htxn, hsp]
        refine ⟨tail, by rw [hred, hq]; rfl, ?_⟩
        rw [hq] at hlen
        simpa using hlen
      | some pfx =>
        cases hdw : entries.dropWhile (fun e => e.enc < pfx) with
        | nil =>
          exact ⟨[],
            by simp [scanExpiredKeysJob, scanFlagSet, scanCntInc, scanGuard,
              h1, h2, h3, hdb, hro, htxn, hsp, hdw],
            by simpa using hle⟩
        | cons e rest =>
          obtain ⟨tail, hq, _⟩ :=
            scanLoop_append b sid (if e.enc = pfx then rest else e :: rest)
              (scanCntInc sid (scanFlagSet sid st))
          have hlen :=
            scanLoop_length_le b sid (if e.enc = pfx then rest else e :: rest)
              (scanCntInc sid (scanFlagSet sid st)) hlt
          have hred : (scanExpiredKeysJob env b sid st).2.expiredKeys sid
              = (scanLoop b sid (if e.enc = pfx then rest else e :: rest)
                  (scanCntInc sid (scanFlagSet sid st))).expiredKeys sid := by
            simp [scanExpiredKeysJob, scanFlagSet, scanCntInc, scanGuard,
              h1, h2, h3, hdb, hro, htxn, hsp, hdw]
          refine ⟨tail, by rw [hred, hq]; rfl, ?_⟩
          rw [hq] at hlen
          simpa using hlen

lemma tryDel_bounds (db sid : Nat) (st : IMState) (hone : 1 ≤ db) :
    (tryDelExpiredKeysJob db sid st).1 ≤ db ∧
    ((tryDelExpiredKeysJob db sid st).2.2.expiredKeys sid).length
      + (tryDelExpiredKeysJob db sid st).1 = (st.expiredKeys sid).length := by
  cases h1 : st.delJobStatus sid with
  | true => simp [tryDelExpiredKeysJob, h1]
  | false =>
  cases h2 : st.disableStatus sid with
  | true => simp [tryDelExpiredKeysJob, delFlagSet, h1, h2]
  | false =>
    have hq : (delCntInc sid (delFlagSet sid st)).expiredKeys sid = st.expiredKeys sid := rfl
    have hle := delLoop_deletes_le db sid (st.expiredKeys sid) 0 []
      (delCntInc sid (delFlagSet sid st)) (by omega)
    have hlen := delLoop_queue_length db sid (st.expiredKeys sid) 0 []
      (delCntInc sid (delFlagSet sid st)) hq
    have hred1 : (tryDelExpiredKeysJob db sid st).1
        = (delLoop db sid (st.expiredKeys sid) 0 [] (delCntInc sid (delFlagSet sid st))).1 := by
      simp [tryDelExpiredKeysJob, delFlagSet, delCntInc, h1, h2]
    have hred2 : (tryDelExpiredKeysJob db sid st).2.2.expiredKeys sid
        = (delLoop db sid (st.expiredKeys sid) 0 []
            (delCntInc sid (delFlagSet sid st))).2.2.expiredKeys sid := by
      simp [tryDelExpiredKeysJob, delFlagSet, delCntInc, delExit, h1, h2]
    rw [hred1, hred2]
    exact ⟨hle, by omega⟩

/-- Start state for the scanner half of the C2 counterexample: shard 0's
queue already holds one record, which equals the scan batch. -/
def cexScanStart : IMState :=
  { initIM with expiredKeys := upd initIM.expiredKeys 0 [⟨"a", 0, 0, 1⟩] }

/-- Start state for the deleter half of the C2 counterexample: shard 0's
queue holds two records while the delete batch is zero. -/
def cexDelStart : IMState :=
  { initIM with
    expiredKeys := upd initIM.expiredKeys 0 [⟨"a", 0, 0, 1⟩, ⟨"b", 0, 0, 2⟩] }

/-- C2 counterexample: the scanner's stop test compares the queue size to
`_scanBatch` with equality, so an invocation that starts with the queue
already at `_scanBatch` (here 1) never triggers it and appends every
remaining cursor record (2 of them, more than the batch); likewise the
deleter's stop test compares the `deletes` counter to `_delBatch` with
equality, so with `_delBatch = 0` it pops the whole queue (2 records,
more than the batch). -/
theorem batch_bound_counterexample :
    ((cexScanStart.expiredKeys 0).length = 1) ∧
    (((scanExpiredKeysJob
        ⟨false, false, .ok ⟨.READ_WRITE, true, .ok [⟨"b", 0, 0, 2⟩, ⟨"c", 0, 0, 3⟩]⟩⟩
        1 0 cexScanStart).2.expiredKeys 0).length = 3) ∧
    ((tryDelExpiredKeysJob 0 0 cexDelStart).1 = 2) := by
  decide

/-- C2 amended: when the shard's queue holds fewer than `scan_batch`
entries at the start of the invocation, a single scanner job appends at
most `scan_batch` minus that start size entries (so at most `scan_batch`);
and when `del_batch` is at least 1, a single deleter job pops at most
`del_batch` entries (the pop count equals the drop in queue length). -/
theorem batch_bounds_amended (env : ScanEnv) (b sid : Nat) (st : IMState)
    (db sidD : Nat) (stD : IMState)
    (hlt : (st.expiredKeys sid).length < b) (hone : 1 ≤ db) :
    (∃ tail, (scanExpiredKeysJob env b sid st).2.expiredKeys sid
        = st.expiredKeys sid ++ tail ∧
      (st.expiredKeys sid).length + tail.length ≤ b) ∧
    ((tryDelExpiredKeysJob db sidD stD).1 ≤ db ∧
      ((tryDelExpiredKeysJob db sidD stD).2.2.expiredKeys sidD).length
        + (tryDelExpiredKeysJob db sidD stD).1 = (stD.expiredKeys sidD).length) :=
  ⟨scan_append_bound env b sid st hlt, tryDel_bounds db sidD stD hone⟩

/-- Witness for the amended C2 at concrete inputs. -/
theorem batch_bounds_amended_witness :
    ((initIM.expiredKeys 0).length < 2 ∧ (1 : Nat) ≤ 1) ∧
    (∃ tail, (scanExpiredKeysJob
        ⟨false, false, .ok ⟨.READ_WRITE, true, .ok [⟨"b", 0, 0, 2⟩, ⟨"c", 0, 0, 3⟩]⟩⟩
        2 0 initIM).2.expiredKeys 0 = initIM.expiredKeys 0 ++ tail ∧
      (initIM.expiredKeys 0).length + tail.length ≤ 2) ∧
    ((tryDelExpiredKeysJob 1 0 cexDelStart).1 ≤ 1 ∧
      ((tryDelExpiredKeysJob 1 0 cexDelStart).2.2.expiredKeys 0).length
        + (tryDelExpiredKeysJob 1 0 cexDelStart).1 = (cexDelStart.expiredKeys 0).length) := by
  have h := batch_bounds_amended
    ⟨false, false, .ok ⟨.READ_WRITE, true, .ok [⟨"b", 0, 0, 2⟩, ⟨"c", 0, 0, 3⟩]⟩⟩
    2 0 initIM 1 0 cexDelStart (by decide) (by decide)
  exact ⟨⟨by decide, by decide⟩, h.1, h.2⟩

/-- C4 counterexample: a failing shard lookup (`getDb` returns a non-OK
status) makes `scanExpiredKeysJob` return that error status, not
success. -/
theorem scan_error_status_counterexample :
    ((scanExpiredKeysJob ⟨false, false, .error ⟨false, 7⟩⟩ 10 0 initIM).1 = ⟨false, 7⟩) ∧
    ((⟨false, 7⟩ : Status).ok = false) := by
  decide

/-- C4 amended: a cursor read failure (no key at or after the seek
target, or no further record) aborts the scan and the job returns
success, but a shard-lookup failure or a transaction-begin failure makes
the job return that error status to its caller (the dispatch loop, which
discards it): whenever `scanExpiredKeysJob` returns a non-OK status, that
status is the error of `getDb` or of `createTransaction`. -/
theorem scan_error_status_amended (env : ScanEnv) (b sid : Nat) (st : IMState)
    (hne : (scanExpiredKeysJob env b sid st).1.ok = false) :
    (env.getDb = .error (scanExpiredKeysJob env b sid st).1) ∨
    (∃ store, env.getDb = .ok store ∧
      store.createTransaction = .error (scanExpiredKeysJob env b sid st).1) := by
  cases h1 : st.scanJobStatus sid with
  | true => simp [scanExpiredKeysJob, h1, statusOK] at hne
  | false =>
  cases h2 : st.disableStatus sid with
  | true => simp [scanExpiredKeysJob, scanFlagSet, h1, h2, statusOK] at hne
  | false =>
  cases h3 : env.clusterEnabled && env.existMigrateTask with
  | true =>
    simp [scanExpiredKeysJob, scanFlagSet, scanCntInc, scanGuard, h1, h2, h3, statusOK] at hne
  | false =>
  cases hdb : env.getDb with
  | error s =>
    left
    have : (scanExpiredKeysJob env b sid st).1 = s := by
      simp [scanExpiredKeysJob, scanFlagSet, scanCntInc, scanGuard, h1, h2, h3, hdb]
    rw [this]
  | ok store =>
  by_cases hro : store.mode = .REPLICATE_ONLY ∨ store.isOpen = false
  · simp [scanExpiredKeysJob, scanFlagSet, scanCntInc, scanGuard,
      h1, h2, h3, hdb, hro, statusOK] at hne
  · cases htxn : store.createTransaction with
    | error s =>
      right
      have : (scanExpiredKeysJob env b sid st).1 = s := by
        simp [scanExpiredKeysJob, scanFlagSet, scanCntInc, scanGuard,
          h1, h2, h3, hdb, hro, htxn]
      exact ⟨store, rfl, by rw [this]; exact htxn⟩
    | ok entries =>
      cases hsp : st.scanPoints sid with
      | none =>
        simp [scanExpiredKeysJob, scanFlagSet, scanCntInc, scanGuard,
          h1, h2, h3, hdb, hro, htxn, hsp, statusOK] at hne
      | some pfx =>
        cases hdw : entries.dropWhile (fun e => e.enc < pfx) with
        | nil =>
          simp [scanExpiredKeysJob, scanFlagSet, scanCntInc, scanGuard,
            h1, h2, h3, hdb, hro, htxn, hsp, hdw, statusOK] at hne
        | cons e rest =>
          simp [scanExpiredKeysJob, scanFlagSet, scanCntInc, scanGuard,
            h1, h2, h3, hdb, hro, htxn, hsp, hdw, statusOK] at hne

/-- Witness for the amended C4: the shard-lookup failure case. -/
theorem scan_error_status_amended_witness :
    ((scanExpiredKeysJob ⟨false, false, .error ⟨false, 7⟩⟩ 10 0 initIM).1.ok = false) ∧
    (((⟨false, false, .error ⟨false, 7⟩⟩ : ScanEnv).getDb
        = .error (scanExpiredKeysJob ⟨false, false, .error ⟨false, 7⟩⟩ 10 0 initIM).1) ∨
      (∃ store, (⟨false, false, .error ⟨false, 7⟩⟩ : ScanEnv).getDb = .ok store ∧
        store.createTransaction
          = .error (scanExpiredKeysJob ⟨false, false, .error ⟨false, 7⟩⟩ 10 0 initIM).1)) :=
  ⟨by decide, scan_error_status_amended _ 10 0 initIM (by decide)⟩

/-- C3: a scanner pass that starts with resume point `C` never appends to
the shard's queue an entry whose encoded form equals `C`: the cursor
seeks to the first entry at or after `C` and, when that entry's key
equals `C`, advances past it before the scan body runs, so with a
strictly ascending cursor every appended entry has encoded form above
`C`. -/
theorem resume_skip_no_reenqueue (env : ScanEnv) (b sid : Nat) (st : IMState)
    (store : PStore) (entries : List TTLIndex) (C : Nat)
    (hdb : env.getDb = .ok store)
    (hmode : store.mode ≠ .REPLICATE_ONLY) (hopen : store.isOpen = true)
    (htxn : store.createTransaction = .ok entries)
    (hsorted : entries.Pairwise (fun a b => a.enc < b.enc))
    (hC : st.scanPoints sid = some C) :
    ∃ tail, (scanExpiredKeysJob env b sid st).2.expiredKeys sid
        = st.expiredKeys sid ++ tail ∧ ∀ e ∈ tail, e.enc ≠ C := by
  have hro : ¬(store.mode = .REPLICATE_ONLY ∨ store.isOpen = false) := by
    simp [hmode, hopen]
  cases h1 : st.scanJobStatus sid with
  | true => exact ⟨[], by simp [scanExpiredKeysJob, h1], by simp⟩
  | false =>
  cases h2 : st.disableStatus sid with
  | true => exact ⟨[], by simp [scanExpiredKeysJob, scanFlagSet, h1, h2], by simp⟩
  | false =>
  cases h3 : env.clusterEnabled && env.existMigrateTask with
  | true =>
    exact ⟨[], by simp [scanExpiredKeysJob, scanFlagSet, scanCntInc, scanGuard, h1, h2, h3],
      by simp⟩
  | false =>
  cases hdw : entries.dropWhile (fun e => e.enc < C) with
  | nil =>
    exact ⟨[], by simp [scanExpiredKeysJob, scanFlagSet, scanCntInc, scanGuard,
      h1, h2, h3, hdb, hro, htxn, hC, hdw], by simp⟩
  | cons e rest =>
    have habove := dropWhile_cursor_above C hsorted hdw
    have hall : ∀ x ∈ (if e.enc = C then rest else e :: rest), C < x.enc := by
      by_cases he : e.enc = C
      · intro x hx
        rw [if_pos he] at hx
        have := habove.2 x hx
        omega
      · intro x hx
        rw [if_neg he] at hx
        rcases List.mem_cons.mp hx with hxe | hxr
        · subst hxe
          rcases Nat.lt_or_ge C x.enc with h | h
          · exact h
          · exact absurd (Nat.le_antisymm h habove.1) he
        · have h1e : C < e.enc := Nat.lt_of_le_of_ne habove.1 (fun hEq => he hEq.symm)
          exact Nat.lt_trans h1e (habove.2 x hxr)
    obtain ⟨tail, hq, hmem⟩ :=
      scanLoop_append b sid (if e.enc = C then rest else e :: rest)
        (scanCntInc sid (scanFlagSet sid st))
    have hred : (scanExpiredKeysJob env b sid st).2.expiredKeys sid
        = (scanLoop b sid (if e.enc = C then rest else e :: rest)
            (scanCntInc sid (scanFlagSet sid st))).expiredKeys sid := by
      simp [scanExpiredKeysJob, scanFlagSet, scanCntInc, scanGuard,
        h1, h2, h3, hdb, hro, htxn, hC, hdw]
    refine ⟨tail, by rw [hred, hq]; rfl, ?_⟩
    intro x hx
    have := hall x (hmem x hx)
    omega

/-- Resume state for the C3 witness: shard 0 resumes from encoded key 5. -/
def cexResumeState : IMState :=
  { initIM with scanPoints := upd initIM.scanPoints 0 (some 5) }

/-- Witness for C3 on a cursor that still contains the resume entry. -/
theorem resume_skip_no_reenqueue_witness :
    ∃ tail, (scanExpiredKeysJob
        ⟨false, false, .ok ⟨.READ_WRITE, true, .ok [⟨"a", 0, 0, 5⟩, ⟨"b", 0, 0, 9⟩]⟩⟩
        10 0 cexResumeState).2.expiredKeys 0
      = cexResumeState.expiredKeys 0 ++ tail ∧ ∀ e ∈ tail, e.enc ≠ 5 :=
  resume_skip_no_reenqueue _ 10 0 cexResumeState
    ⟨.READ_WRITE, true, .ok [⟨"a", 0, 0, 5⟩, ⟨"b", 0, 0, 9⟩]⟩
    [⟨"a", 0, 0, 5⟩, ⟨"b", 0, 0, 9⟩] 5 rfl (by decide) rfl rfl (by decide) rfl

/-- Record used in the C5 counterexample and witness traces. -/
def cexEntry : TTLIndex := ⟨"k", 0, 0, 5⟩

/-- C5 counterexample: the claim fails on the code. In the one-shard
execution model, the scanner enqueues a record while the shard is
READ_WRITE, the shard then switches to REPLICATE_ONLY with the queue
non-empty, and the next deleter invocation still passes the queued record
to `Command::expireKeyIfNeeded` — the deleter has no storage-mode check —
so the call happens while the shard's mode is REPLICATE_ONLY. -/
theorem replica_safety_counterexample :
    (sysExec 2 2 (sysInit .READ_WRITE)
      [.scanEv [cexEntry], .setMode .REPLICATE_ONLY, .delEv]).calls
      = [(cexEntry, .REPLICATE_ONLY)] := by
  decide

lemma sysExec_ro_inv (b db : Nat) :
    ∀ (tr : List SysEvent) (s : SysState),
      (∀ m, SysEvent.setMode m ∈ tr → m = StoreMode.REPLICATE_ONLY) →
      s.mode = .REPLICATE_ONLY → s.im.expiredKeys 0 = [] → s.calls = [] →
      (sysExec b db s tr).mode = .REPLICATE_ONLY ∧
      (sysExec b db s tr).im.expiredKeys 0 = [] ∧
      (sysExec b db s tr).calls = [] := by
  intro tr
  induction tr with
  | nil =>
    intro s _ h1 h2 h3
    exact ⟨h1, h2, h3⟩
  | cons ev rest ih =>
    intro s hset h1 h2 h3
    have hrest : ∀ m, SysEvent.setMode m ∈ rest → m = StoreMode.REPLICATE_ONLY :=
      fun m hm => hset m (List.mem_cons_of_mem _ hm)
    have hstep : sysExec b db s (ev :: rest) = sysExec b db (sysStep b db s ev) rest := by
      simp [sysExec]
    rw [hstep]
    cases ev with
    | scanEv entries =>
      apply ih _ hrest
      · exact h1
      · have hframe := (scan_ro_frame ⟨false, false, .ok ⟨s.mode, true, .ok entries⟩⟩ b 0 s.im
          ⟨s.mode, true, .ok entries⟩ rfl (Or.inl h1)).2.1
        show (scanExpiredKeysJob ⟨false, false, .ok ⟨s.mode, true, .ok entries⟩⟩ b 0
          s.im).2.expiredKeys 0 = []
        rw [congrFun hframe 0, h2]
      · exact h3
    | delEv =>
      apply ih _ hrest
      · exact h1
      · exact (tryDel_empty db 0 s.im h2).2
      · show s.calls ++ (tryDelExpiredKeysJob db 0 s.im).2.1.map (fun e => (e, s.mode)) = []
        rw [(tryDel_empty db 0 s.im h2).1, h3]
        simp
    | setMode m =>
      apply ih _ hrest
      · exact hset m (List.mem_cons_self _ _)
      · exact h2
      · exact h3
    | stopStoreEv =>
      apply ih _ hrest
      · exact h1
      · show (stopStore 0 s.im).2.expiredKeys 0 = []
        simp [stopStore, upd_self]
      · exact h3

/-- C5 amended: a shard that is REPLICATE_ONLY for the whole execution
(initially, with every mode change setting REPLICATE_ONLY again) never
receives a `Command::expireKeyIfNeeded` call from the engine; but when
the mode changes from READ_WRITE to REPLICATE_ONLY while the shard's
expired queue is non-empty, already-queued entries may still be passed
to `Command::expireKeyIfNeeded` while the shard is REPLICATE_ONLY. -/
theorem replica_safety_amended (b db : Nat) (tr : List SysEvent)
    (hset : ∀ m, SysEvent.setMode m ∈ tr → m = StoreMode.REPLICATE_ONLY) :
    (sysExec b db (sysInit .REPLICATE_ONLY) tr).calls = [] :=
  (sysExec_ro_inv b db tr (sysInit .REPLICATE_ONLY) hset rfl rfl rfl).2.2

/-- Witness for the amended C5 on a concrete replica-only trace. -/
theorem replica_safety_amended_witness :
    (∀ m, SysEvent.setMode m ∈
        ([.scanEv [cexEntry], .delEv, .stopStoreEv] : List SysEvent) →
      m = StoreMode.REPLICATE_ONLY) ∧
    (sysExec 2 2 (sysInit .REPLICATE_ONLY)
      [.scanEv [cexEntry], .delEv, .stopStoreEv]).calls = [] := by
  constructor
  · intro m hm
    simp at hm
  · exact replica_safety_amended 2 2 _ (by intro m hm; simp at hm)

/-- C1: the claim fails on the code. In the state left by `stopStore 0`
(busy flags false, disable flag true) the initial CAS of both
`scanExpiredKeysJob` and `tryDelExpiredKeysJob` succeeds, yet both jobs
return (with OK status) leaving the busy flag stored true, because the
disable check precedes the installation of the scanner's release guard
and the deleter's release statements. -/
theorem busy_flag_left_set_on_disabled_return :
    ((stopStore 0 initIM).2.scanJobStatus 0 = false) ∧
    ((stopStore 0 initIM).2.delJobStatus 0 = false) ∧
    ((stopStore 0 initIM).2.disableStatus 0 = true) ∧
    ((scanExpiredKeysJob ⟨false, false, .ok ⟨.READ_WRITE, true, .ok []⟩⟩ 10 0
        (stopStore 0 initIM).2).1 = statusOK) ∧
    ((scanExpiredKeysJob ⟨false, false, .ok ⟨.READ_WRITE, true, .ok []⟩⟩ 10 0
        (stopStore 0 initIM).2).2.scanJobStatus 0 = true) ∧
    ((tryDelExpiredKeysJob 10 0 (stopStore 0 initIM).2).2.2.delJobStatus 0 = true) := by
  decide

/-- C10: the claim fails on the code. When cluster mode is on and a
migrate task exists, `scanExpiredKeysJob` takes the early return that
runs the scope guard, which decrements `_scanJobCnt[storeId]` even though
the matching increment (placed after the migrate-task check) never ran:
starting from the constructor state (counter 0) the unsigned counter
underflows to `2 ^ 32 - 1`. -/
theorem scan_job_cnt_underflow :
    (initIM.scanJobCnt 0 = 0) ∧
    ((scanExpiredKeysJob ⟨true, true, .ok ⟨.READ_WRITE, true, .ok []⟩⟩ 10 0 initIM).1
      = statusOK) ∧
    ((scanExpiredKeysJob ⟨true, true, .ok ⟨.READ_WRITE, true, .ok []⟩⟩ 10 0 initIM).2.scanJobCnt 0
      = 2 ^ 32 - 1) := by
  decide

/-- C7: `stopStore i` leaves shard `i` with an empty expired queue, an
empty resume cursor, both in-flight counters zero and the disable flag
true, while every field of any other shard `j` and the process-wide
enqueue and dequeue counters are unchanged. -/
theorem stopStore_frame (st : IMState) (i j : Nat) (h : j ≠ i) :
    ((stopStore i st).2.expiredKeys i = []) ∧
    ((stopStore i st).2.scanPoints i = none) ∧
    ((stopStore i st).2.scanJobCnt i = 0) ∧
    ((stopStore i st).2.delJobCnt i = 0) ∧
    ((stopStore i st).2.disableStatus i = true) ∧
    ((stopStore i st).2.expiredKeys j = st.expiredKeys j) ∧
    ((stopStore i st).2.scanPoints j = st.scanPoints j) ∧
    ((stopStore i st).2.scanJobStatus j = st.scanJobStatus j) ∧
    ((stopStore i st).2.delJobStatus j = st.delJobStatus j) ∧
    ((stopStore i st).2.disableStatus j = st.disableStatus j) ∧
    ((stopStore i st).2.scanJobCnt j = st.scanJobCnt j) ∧
    ((stopStore i st).2.delJobCnt j = st.delJobCnt j) ∧
    ((stopStore i st).2.totalEnqueue = st.totalEnqueue) ∧
    ((stopStore i st).2.totalDequeue = st.totalDequeue) := by
  simp [stopStore, upd_self, upd_other _ _ _ _ h]

/-- Witness for C7 at a concrete state and shard pair. -/
theorem stopStore_frame_witness :
    (1 : Nat) ≠ 0 ∧
    ((stopStore 0 initIM).2.disableStatus 0 = true) ∧
    ((stopStore 0 initIM).2.expiredKeys 1 = initIM.expiredKeys 1) := by
  refine ⟨by decide, ?_, ?_⟩
  · exact (stopStore_frame initIM 0 1 (by decide)).2.2.2.2.1
  · exact (stopStore_frame initIM 0 1 (by decide)).2.2.2.2.2.1

/-- C8: one iteration of the dispatch-loop body schedules a scanner job
for exactly the shard ids below the store count, schedules a deleter job
for exactly the shards whose expired queue is non-empty in the snapshot
taken of the state, and then sleeps the configured pause time. -/
theorem dispatch_tick_schedules (N pt : Nat) (st : IMState) (i : Nat) :
    (i ∈ (runTick N pt st).scanScheduled ↔ i < N) ∧
    (i ∈ (runTick N pt st).delScheduled ↔ i < N ∧ st.expiredKeys i ≠ []) ∧
    (runTick N pt st).sleepSeconds = pt := by
  refine ⟨by simp [runTick], ?_, rfl⟩
  simp [runTick, List.mem_filter, List.length_pos]

/-- C9: `IndexManager::startup` returns a non-OK status exactly when one
of the two worker pools fails to start; the failing pool's status is the
one returned, and in that case the dispatch thread is not launched and
`_isRunning` stays false; when both pools start, it returns OK, launches
the dispatch thread and sets `_isRunning`, which `stop` later clears. -/
theorem startup_status (env : PoolsEnv) :
    ((startup env).status.ok = false ↔
      (env.scannerStartup.ok = false ∨ env.deleterStartup.ok = false)) ∧
    (env.scannerStartup.ok = false → startup env = ⟨env.scannerStartup, false, false⟩) ∧
    (env.scannerStartup.ok = true → env.deleterStartup.ok = false →
      startup env = ⟨env.deleterStartup, false, false⟩) ∧
    (env.scannerStartup.ok = true → env.deleterStartup.ok = true →
      startup env = ⟨statusOK, true, true⟩) ∧
    (stopIM (startup env)).isRunning = false := by
  cases hs : env.scannerStartup.ok with
  | false => simp [startup, stopIM, hs]
  | true =>
    cases hd : env.deleterStartup.ok with
    | false => simp [startup, stopIM, hs, hd]
    | true => simp [startup, stopIM, statusOK, hs, hd]

/-- Witness for C9: a failing scanner pool propagates its status with the
engine not running; two healthy pools give a running engine. -/
theorem startup_status_witness :
    startup ⟨⟨false, 3⟩, ⟨true, 0⟩⟩ = ⟨⟨false, 3⟩, false, false⟩ ∧
    startup ⟨⟨true, 0⟩, ⟨true, 0⟩⟩ = ⟨statusOK, true, true⟩ := by
  exact ⟨(startup_status ⟨⟨false, 3⟩, ⟨true, 0⟩⟩).2.1 rfl,
    (startup_status ⟨⟨true, 0⟩, ⟨true, 0⟩⟩).2.2.2.1 rfl rfl⟩

/-- C6: a scanner invocation on a shard whose store is replicate-only or
not open returns OK without touching the shard's expired queue, its
resume point, or the process-wide enqueue counter. -/
theorem replica_scan_no_effect (env : ScanEnv) (b sid : Nat) (st : IMState)
    (store : PStore) (hdb : env.getDb = .ok store)
    (hro : store.mode = .REPLICATE_ONLY ∨ store.isOpen = false) :
    (scanExpiredKeysJob env b sid st).1 = statusOK ∧
    (scanExpiredKeysJob env b sid st).2.expiredKeys sid = st.expiredKeys sid ∧
    (scanExpiredKeysJob env b sid st).2.scanPoints sid = st.scanPoints sid ∧
    (scanExpiredKeysJob env b sid st).2.totalEnqueue = st.totalEnqueue := by
  obtain ⟨ha, hb, hc, hd⟩ := scan_ro_frame env b sid st store hdb hro
  exact ⟨ha, congrFun hb sid, congrFun hc sid, hd⟩

/-- Witness for C6 on a replicate-only store with a non-empty cursor. -/
theorem replica_scan_no_effect_witness :
    (scanExpiredKeysJob ⟨false, false, .ok ⟨.REPLICATE_ONLY, true, .ok [⟨"a", 0, 0, 3⟩]⟩⟩
      10 0 initIM).1 = statusOK ∧
    (scanExpiredKeysJob ⟨false, false, .ok ⟨.REPLICATE_ONLY, true, .ok [⟨"a", 0, 0, 3⟩]⟩⟩
      10 0 initIM).2.expiredKeys 0 = initIM.expiredKeys 0 ∧
    (scanExpiredKeysJob ⟨false, false, .ok ⟨.REPLICATE_ONLY, true, .ok [⟨"a", 0, 0, 3⟩]⟩⟩
      10 0 initIM).2.scanPoints 0 = initIM.scanPoints 0 ∧
    (scanExpiredKeysJob ⟨false, false, .ok ⟨.REPLICATE_ONLY, true, .ok [⟨"a", 0, 0, 3⟩]⟩⟩
      10 0 initIM).2.totalEnqueue = initIM.totalEnqueue := by
  exact replica_scan_no_effect _ 10 0 initIM ⟨.REPLICATE_ONLY, true, .ok [⟨"a", 0, 0, 3⟩]⟩
    rfl (Or.inl rfl)

end Tendis
